import Mathlib

/-
  Verification of the News-Scraper application (src/news.py).

  The development shallowly embeds the article ingestion-and-enrichment
  pipeline: keyword extraction (`extract_keywords`), sentiment labelling
  (`analyze_sentiment`), payload normalisation (`fetch_news`), the SQLite
  persistence layer (`save_articles`, `toggle_bookmark`,
  `load_recent_searches`) and the article data model (`NewsArticle`).

  External library behaviour is embedded as follows:
  - TextBlob's polarity scorer is an oracle parameter `String → Option ℚ`;
    a `none` result stands for the library being unavailable
    (`HAS_TEXTBLOB = False`) or the scorer raising, both of which the
    source maps to the neutral fallback.
  - `datetime.fromisoformat` is a parser parameter `String → Option String`;
    `none` stands for a `ValueError` on a malformed date string.
  - SQLite's `INSERT OR REPLACE` on the url-unique `articles` table deletes
    the conflicting row and inserts a fresh one; columns absent from the
    insert column list (notably `bookmarked`) take their schema defaults.
  - SQLite's `SELECT DISTINCT query FROM searches ORDER BY timestamp DESC`
    keeps, for each distinct query value, the first row in table-scan
    (insertion) order, and orders these representative rows by their
    timestamp, descending, stably.
  Python's `Counter.most_common(n)` is a stable sort of the counter items
  (keyed in first-insertion order) by descending count, truncated to `n`.
-/

/-- The whitespace class of Python's `str.split()` and of the regex `\s`
used in `extract_keywords` (news.py line 190). -/
def isSpaceChar (c : Char) : Bool :=
  c = ' ' || c = '\t' || c = '\n' || c = '\r' || c = '\x0b' || c = '\x0c'

/-- news.py line 190: `re.sub(r'[^a-zA-Z\s]', '', text.lower())` — lowercase
the text, then keep only ASCII letters and whitespace. -/
def cleanText (s : String) : String :=
  String.mk ((s.data.map Char.toLower).filter (fun c => c.isAlpha || isSpaceChar c))

/-- Python's `str.split()` with no arguments: split on runs of whitespace,
dropping empty tokens.  `acc` holds the characters of the current word,
reversed. -/
def wordsAux (acc : List Char) : List Char → List String
  | [] => if acc.isEmpty then [] else [String.mk acc.reverse]
  | c :: cs =>
    if isSpaceChar c then
      if acc.isEmpty then wordsAux [] cs
      else String.mk acc.reverse :: wordsAux [] cs
    else wordsAux (c :: acc) cs

/-- Tokenise the cleaned text as `text.split()` does (news.py line 202). -/
def tokenize (s : String) : List String :=
  wordsAux [] (cleanText s).data

/-- The stop-word set embedded in `extract_keywords` (news.py lines 193-200). -/
def stop_words : List String :=
  ["the", "and", "or", "but", "in", "on", "at", "to", "for", "of", "with",
   "by", "from", "up", "about", "into", "through", "during", "before",
   "after", "above", "below", "between", "among", "this", "that", "these",
   "those", "is", "are", "was", "were", "be", "been", "being", "have",
   "has", "had", "do", "does", "did", "will", "would", "could", "should",
   "may", "might", "must", "can", "said", "says", "news", "report"]

/-- news.py line 202: keep tokens of length at least 3 that are not stop
words. -/
def filteredWords (s : String) : List String :=
  (tokenize s).filter (fun w => 3 ≤ w.length && !stop_words.contains w)

/-- First occurrence of each key value, in encounter order; `seen` is the
set of key values already emitted.  This is the key order of a Python
`Counter`/`dict` built by iterating the word list. -/
def firstOccurrencesAux {α β : Type} [DecidableEq β] (key : α → β)
    (seen : List β) : List α → List α
  | [] => []
  | x :: xs =>
    if seen.contains (key x) then firstOccurrencesAux key seen xs
    else x :: firstOccurrencesAux key (key x :: seen) xs

/-- First occurrence of each key value, in encounter order. -/
def firstOccurrences {α β : Type} [DecidableEq β] (key : α → β)
    (l : List α) : List α :=
  firstOccurrencesAux key [] l

/-- The items of `Counter(words)`: each distinct word in first-encounter
order, paired with its number of occurrences. -/
def counterItems (ws : List String) : List (String × Nat) :=
  (firstOccurrences id ws).map (fun w => (w, ws.count w))

/-- Order counter items by descending count (the sort key of
`Counter.most_common`). -/
def byCountDesc (p q : String × Nat) : Prop := q.2 ≤ p.2

instance : DecidableRel byCountDesc :=
  fun p q => inferInstanceAs (Decidable (q.2 ≤ p.2))

instance : IsTotal (String × Nat) byCountDesc :=
  ⟨fun p q => Nat.le_total q.2 p.2⟩

instance : IsTrans (String × Nat) byCountDesc :=
  ⟨fun _ _ _ h1 h2 => le_trans h2 h1⟩

/-- The counter items stably sorted by descending count. -/
def sortedCounterItems (ws : List String) : List (String × Nat) :=
  List.insertionSort byCountDesc (counterItems ws)

/-- `Counter(words).most_common(n)` projected to the words: a stable sort
by descending count, truncated to `n` (news.py lines 203-204). -/
def most_common (ws : List String) (n : Nat) : List String :=
  ((sortedCounterItems ws).map Prod.fst).take n

/-- NewsAnalyzer.extract_keywords (news.py lines 184-204). -/
def extract_keywords (text : String) (num_keywords : Nat := 5) : List String :=
  if text = "" then []
  else most_common (filteredWords text) num_keywords

/-- The full descending-frequency ranking of the distinct filtered words of
a text; `extract_keywords text n` is its `n`-prefix. -/
def rankedKeywords (text : String) : List String :=
  (sortedCounterItems (filteredWords text)).map Prod.fst

/-- The threshold classification of a polarity value
(news.py lines 173-178).  The thresholds 1/10 and -(1/10) are literals in
the source, not parameters. -/
def classifyPolarity (polarity : ℚ) : String :=
  if polarity > 1/10 then "positive"
  else if polarity < -(1/10) then "negative"
  else "neutral"

/-- NewsAnalyzer.analyze_sentiment (news.py lines 164-182).  `oracle`
embeds TextBlob's polarity scorer; `oracle text = none` covers both
`HAS_TEXTBLOB` being false and the scorer raising, which the source maps
to the `(0.0, "neutral")` fallback. -/
def analyze_sentiment (oracle : String → Option ℚ) (text : String) : ℚ × String :=
  if text = "" then (0, "neutral")
  else
    match oracle text with
    | none => (0, "neutral")
    | some polarity => (polarity, classifyPolarity polarity)

/-- Data class NewsArticle (news.py lines 50-63).  `published_at` is kept
as its ISO-8601 string form. -/
structure NewsArticle where
  title : String
  description : String
  url : String
  source : String
  published_at : String
  image_url : Option String := none
  content : Option String := none
  sentiment_score : ℚ := 0
  sentiment_label : String := "neutral"
  keywords : List String := []
deriving Repr, DecidableEq

/-- NewsAnalyzer.process_article (news.py lines 206-211): enrich an article
with sentiment and keywords computed from `title + " " + description`. -/
def process_article (oracle : String → Option ℚ) (article : NewsArticle) :
    NewsArticle :=
  let full_text := article.title ++ " " ++ article.description
  let s := analyze_sentiment oracle full_text
  { article with
      sentiment_score := s.1
      sentiment_label := s.2
      keywords := extract_keywords full_text }

/-- One raw item of the News API payload (the dictionaries iterated at
news.py line 144).  `title`, `description`, `urlToImage` and `content` may
be absent; `url`, `source.name` and `publishedAt` are accessed by direct
indexing in the source. -/
structure RawItem where
  title : Option String
  description : Option String := none
  url : String
  sourceName : String
  publishedAt : String
  urlToImage : Option String := none
  content : Option String := none
deriving Repr, DecidableEq

/-- The keep condition of news.py line 145:
`item.get('title') and item.get('title') != '[Removed]'`.  A missing or
empty title is falsy in Python. -/
def keepItem (item : RawItem) : Bool :=
  match item.title with
  | none => false
  | some t => t ≠ "" && t ≠ "[Removed]"

/-- Construction of a NewsArticle from a kept raw item
(news.py lines 146-154), given the parsed `publishedAt` value. -/
def rawToArticle (item : RawItem) (parsedDate : String) : NewsArticle :=
  { title := item.title.getD ""
    description := item.description.getD ""
    url := item.url
    source := item.sourceName
    published_at := parsedDate
    image_url := item.urlToImage
    content := some (item.content.getD "") }

/-- The normalisation loop of NewsAnalyzer.fetch_news
(news.py lines 144-162) applied to a decoded payload.  `parseDate` embeds
`datetime.fromisoformat`; a `none` result stands for a `ValueError`, which
the surrounding `except` turns into a failure of the whole call, so no
partially built article list ever escapes. -/
def fetch_news (parseDate : String → Option String) :
    List RawItem → Except String (List NewsArticle)
  | [] => .ok []
  | item :: rest =>
    if keepItem item then
      match parseDate (item.publishedAt.replace "Z" "+00:00") with
      | none => .error "Error fetching news: invalid isoformat string"
      | some d =>
        match fetch_news parseDate rest with
        | .ok articles => .ok (rawToArticle item d :: articles)
        | .error e => .error e
    else fetch_news parseDate rest

/-- One row of the `articles` table (news.py lines 77-94).  `id` and
`created_at` are irrelevant to the claims and omitted; `bookmarked`
defaults to false (schema default 0). -/
structure ArticleRow where
  title : String
  description : String
  content : Option String
  url : String
  source : String
  published_at : String
  image_url : Option String
  sentiment_score : ℚ
  sentiment_label : String
  keywords : String
  category : Option String
  bookmarked : Bool := false
deriving Repr, DecidableEq

/-- Python's `category or 'general'` (news.py line 237): `None` and the
empty string are falsy. -/
def categoryOrGeneral : Option String → String
  | none => "general"
  | some c => if c = "" then "general" else c

/-- The row written by `save_articles` for one article
(news.py lines 221-238).  `bookmarked` is not in the insert column list,
so the replacement row takes the schema default 0. -/
def articleToRow (article : NewsArticle) (category : Option String) :
    ArticleRow :=
  { title := article.title
    description := article.description
    content := article.content
    url := article.url
    source := article.source
    published_at := article.published_at
    image_url := article.image_url
    sentiment_score := article.sentiment_score
    sentiment_label := article.sentiment_label
    keywords := String.intercalate "," article.keywords
    category := some (categoryOrGeneral category)
    bookmarked := false }

/-- SQLite `INSERT OR REPLACE` on the url-unique `articles` table: delete
every row conflicting on `url`, then insert the new row. -/
def insertOrReplace (rows : List ArticleRow) (r : ArticleRow) :
    List ArticleRow :=
  rows.filter (fun row => row.url ≠ r.url) ++ [r]

/-- NewsAnalyzer.save_articles (news.py lines 213-245): upsert each article
in order and count the rows written. -/
def save_articles (rows : List ArticleRow) (articles : List NewsArticle)
    (category : Option String) : List ArticleRow × Nat :=
  articles.foldl
    (fun acc a => (insertOrReplace acc.1 (articleToRow a category), acc.2 + 1))
    (rows, 0)

/-- The outcome reported by `toggle_bookmark` via its message boxes:
either the row existed and its flag was flipped to `newState`, or a fresh
bookmarked row was inserted. -/
inductive BookmarkResult where
  | toggled (newState : Bool)
  | added
deriving Repr, DecidableEq

/-- SQLite `UPDATE articles SET bookmarked = ? WHERE url = ?`
(news.py lines 976-977). -/
def setBookmarkFlag (rows : List ArticleRow) (url : String) (b : Bool) :
    List ArticleRow :=
  rows.map (fun row => if row.url = url then { row with bookmarked := b } else row)

/-- The row inserted by the not-yet-stored branch of `toggle_bookmark`
(news.py lines 983-999): no `category` column is supplied (NULL) and
`bookmarked` is forced to 1. -/
def bookmarkInsertRow (article : NewsArticle) : ArticleRow :=
  { title := article.title
    description := article.description
    content := some (article.content.getD "")
    url := article.url
    source := article.source
    published_at := article.published_at
    image_url := article.image_url
    sentiment_score := article.sentiment_score
    sentiment_label := article.sentiment_label
    keywords := String.intercalate "," article.keywords
    category := none
    bookmarked := true }

/-- ModernNewsGUI.toggle_bookmark (news.py lines 964-1010): read the
current flag for the article's url; flip it if a row exists, otherwise
process the article and insert a fresh bookmarked row. -/
def toggle_bookmark (oracle : String → Option ℚ) (rows : List ArticleRow)
    (article : NewsArticle) : List ArticleRow × BookmarkResult :=
  match rows.find? (fun row => row.url = article.url) with
  | some row =>
    let newState := !row.bookmarked
    (setBookmarkFlag rows article.url newState, .toggled newState)
  | none =>
    (rows ++ [bookmarkInsertRow (process_article oracle article)], .added)

/-- One row of the `searches` table (news.py lines 96-103).  `timestamp`
abstracts `CURRENT_TIMESTAMP`; rows appear in insertion (rowid) order. -/
structure SearchRecord where
  query : String
  timestamp : Nat
deriving Repr, DecidableEq

/-- Order search records by descending timestamp. -/
def byTimestampDesc (p q : SearchRecord) : Prop := q.timestamp ≤ p.timestamp

instance : DecidableRel byTimestampDesc :=
  fun p q => inferInstanceAs (Decidable (q.timestamp ≤ p.timestamp))

instance : IsTotal SearchRecord byTimestampDesc :=
  ⟨fun p q => Nat.le_total q.timestamp p.timestamp⟩

instance : IsTrans SearchRecord byTimestampDesc :=
  ⟨fun _ _ _ h1 h2 => le_trans h2 h1⟩

/-- The representative rows scanned by
`SELECT DISTINCT query FROM searches`: the first row of each distinct
query value, in insertion order, then ordered by timestamp descending
(stably) as observed of SQLite for this statement shape. -/
def distinctByRecency (searches : List SearchRecord) : List SearchRecord :=
  List.insertionSort byTimestampDesc (firstOccurrences SearchRecord.query searches)

/-- ModernNewsGUI.load_recent_searches (news.py lines 937-958):
`SELECT DISTINCT query FROM searches ORDER BY timestamp DESC LIMIT 5`. -/
def load_recent_searches (searches : List SearchRecord) : List String :=
  ((distinctByRecency searches).map SearchRecord.query).take 5

/-- The search log of claim C9, recorded in chronological order with
strictly increasing timestamps. -/
def exampleSearches : List SearchRecord :=
  [⟨"ai", 1⟩, ⟨"ai", 2⟩, ⟨"space", 3⟩, ⟨"ai", 4⟩, ⟨"moon", 5⟩, ⟨"space", 6⟩]

/-- A payload item whose title is the `"[Removed]"` sentinel and whose
date string no parser accepts. -/
def removedItem : RawItem :=
  { title := some "[Removed]"
    url := "https://example.com/removed"
    sourceName := "Example"
    publishedAt := "not-a-date" }

/-- A payload item with a usable title. -/
def titledItem : RawItem :=
  { title := some "Markets rallied"
    url := "https://example.com/markets"
    sourceName := "Example"
    publishedAt := "2024-01-01T00:00:00Z" }

/-- A concrete article used by witnesses. -/
def exampleArticle : NewsArticle :=
  { title := "markets"
    description := "rallied"
    url := "https://example.com/a"
    source := "Example"
    published_at := "2024-01-01T00:00:00+00:00" }

def exampleArticle2 : NewsArticle :=
  { exampleArticle with title := "Markets slumped" }

def exampleBookmarkedRow : ArticleRow :=
  { articleToRow exampleArticle none with bookmarked := true }

theorem filter_url_ne_then_eq (l : List ArticleRow) (u : String) :
    (l.filter (fun r => r.url ≠ u)).filter (fun r => r.url = u) = [] := by
  rw [List.filter_filter, List.filter_eq_nil_iff]
  intro a _
  simp

theorem save_articles_single (rows : List ArticleRow) (a : NewsArticle)
    (c : Option String) :
    save_articles rows [a] c = (insertOrReplace rows (articleToRow a c), 1) := rfl

/-- C1: two successive upserts of articles sharing one url but different
titles leave exactly one row for that url, carrying the second title. -/
theorem save_articles_last_write_wins (rows : List ArticleRow)
    (a1 a2 : NewsArticle) (c1 c2 : Option String)
    (hurl : a1.url = a2.url) (htitle : a1.title ≠ a2.title) :
    ((save_articles (save_articles rows [a1] c1).1 [a2] c2).1.filter
        (fun r => r.url = a2.url)).map ArticleRow.title = [a2.title] := by
  rw [save_articles_single, save_articles_single]
  have h2 : (articleToRow a2 c2).url = a2.url := rfl
  simp only [insertOrReplace, h2, List.filter_append, filter_url_ne_then_eq]
  simp [articleToRow]

theorem save_articles_last_write_wins_witness :
    ((save_articles (save_articles [] [exampleArticle] none).1
        [exampleArticle2] none).1.filter
        (fun r => r.url = exampleArticle2.url)).map ArticleRow.title =
      [exampleArticle2.title] :=
  save_articles_last_write_wins [] exampleArticle exampleArticle2 none none
    rfl (by decide)

/-- C2: upserting over a bookmarked row resets its bookmark flag: the
replacement row takes the schema default bookmarked = 0. -/
theorem save_articles_resets_bookmark (rows : List ArticleRow)
    (a : NewsArticle) (c : Option String) (r0 : ArticleRow)
    (hmem : r0 ∈ rows) (hurl : r0.url = a.url) (hb : r0.bookmarked = true) :
    ∀ r ∈ (save_articles rows [a] c).1, r.url = a.url → r.bookmarked = false := by
  rw [save_articles_single]
  intro r hr hru
  simp only [insertOrReplace] at hr
  rcases List.mem_append.mp hr with h | h
  · have hne := (List.mem_filter.mp h).2
    have : (articleToRow a c).url = a.url := rfl
    rw [this] at hne
    simp at hne
    exact absurd hru hne
  · rcases List.mem_singleton.mp h with rfl
    rfl

theorem save_articles_resets_bookmark_witness :
    (articleToRow exampleArticle2 none).bookmarked = false :=
  save_articles_resets_bookmark [exampleBookmarkedRow] exampleArticle2 none
    exampleBookmarkedRow (by decide) (by decide) (by decide)
    (articleToRow exampleArticle2 none) (by decide) (by decide)

/-- C3 counterexample: with the scoring oracle unavailable and a nonempty
text, enrichment degrades the score and label but still extracts keywords,
so the claimed degradation to empty keywords is false. -/
theorem process_article_oracle_down_keywords_nonempty :
    (process_article (fun _ => none) exampleArticle).sentiment_score = 0 ∧
    (process_article (fun _ => none) exampleArticle).sentiment_label = "neutral" ∧
    (process_article (fun _ => none) exampleArticle).keywords = ["markets", "rallied"] ∧
    (process_article (fun _ => none) exampleArticle).keywords ≠ [] := by
  refine ⟨by decide, by decide, by decide, by decide⟩

/-- C3 (amended): enrichment is total and deterministic — a pure function
of title and description; when the oracle yields nothing or the text is
empty the sentiment degrades to score 0 and label neutral, and keyword
extraction of the empty text is empty. -/
theorem process_article_pure_total (oracle : String → Option ℚ)
    (a b : NewsArticle) (ht : a.title = b.title)
    (hd : a.description = b.description) :
    ((process_article oracle a).sentiment_score =
        (process_article oracle b).sentiment_score ∧
      (process_article oracle a).sentiment_label =
        (process_article oracle b).sentiment_label ∧
      (process_article oracle a).keywords = (process_article oracle b).keywords) ∧
    (∀ t, analyze_sentiment (fun _ => none) t = (0, "neutral")) ∧
    analyze_sentiment oracle "" = (0, "neutral") ∧
    (∀ n, extract_keywords "" n = []) := by
  refine ⟨⟨?_, ?_, ?_⟩, ?_, ?_, ?_⟩
  · simp [process_article, ht, hd]
  · simp [process_article, ht, hd]
  · simp [process_article, ht, hd]
  · intro t
    by_cases h : t = "" <;> simp [analyze_sentiment, h]
  · simp [analyze_sentiment]
  · intro n
    simp [extract_keywords]

theorem process_article_pure_total_witness :
    analyze_sentiment (fun _ => none) "markets rallied" = (0, "neutral") ∧
    extract_keywords "" 5 = [] :=
  ⟨(process_article_pure_total (fun _ => none) exampleArticle exampleArticle
      rfl rfl).2.1 "markets rallied",
   (process_article_pure_total (fun _ => none) exampleArticle exampleArticle
      rfl rfl).2.2.2 5⟩

/-- C4: items lacking a usable title or titled with the sentinel are never
kept, and dropping them does not change the outcome of the call — they are
excluded silently, not turned into errors; the result is a function of the
payload, hence deterministic. -/
theorem fetch_news_drops_untitled_and_removed
    (parseDate : String → Option String) (items : List RawItem) :
    (∀ item : RawItem,
      item.title = none ∨ item.title = some "" ∨ item.title = some "[Removed]" →
        keepItem item = false) ∧
    fetch_news parseDate items = fetch_news parseDate (items.filter keepItem) := by
  constructor
  · intro item h
    rcases h with h | h | h <;> simp [keepItem, h]
  · induction items with
    | nil => rfl
    | cons item rest ih =>
      by_cases h : keepItem item
      · simp only [fetch_news, h, if_true, List.filter_cons, ih]
      · simp only [fetch_news, h, if_false, List.filter_cons, ih]
        simp [h]

theorem fetch_news_drops_untitled_and_removed_witness :
    keepItem removedItem = false ∧
    fetch_news (fun s => some s) [removedItem, titledItem] =
      fetch_news (fun s => some s) ([removedItem, titledItem].filter keepItem) :=
  ⟨(fetch_news_drops_untitled_and_removed (fun s => some s)
      [removedItem, titledItem]).1 removedItem (Or.inr (Or.inr rfl)),
   (fetch_news_drops_untitled_and_removed (fun s => some s)
      [removedItem, titledItem]).2⟩

/-- C5 counterexample: on the example sentence the code does not return
the order claimed by the spec — ties after "markets" are broken by
first-seen order, which puts "rallied" before "gained". -/
theorem extract_keywords_example_ne_spec_order :
    extract_keywords "The Markets Rallied As Markets Gained Momentum" 5 ≠
      ["markets", "gained", "momentum", "rallied"] := by decide

/-- C5 (amended): keyword extraction of the example sentence returns
exactly ["markets", "rallied", "gained", "momentum"]: "markets" first with
frequency 2, and the frequency-1 ties after it in first-seen order. -/
theorem extract_keywords_markets_example :
    extract_keywords "The Markets Rallied As Markets Gained Momentum" 5 =
      ["markets", "rallied", "gained", "momentum"] := by decide

/-- C7: the sentiment label is positive exactly when the polarity exceeds
1/10, negative exactly when it is below -(1/10), and neutral otherwise;
the thresholds are literals of `analyze_sentiment`, which takes no
threshold parameter. -/
theorem analyze_sentiment_thresholds (polarity : ℚ) :
    (classifyPolarity polarity = "positive" ↔ 1/10 < polarity) ∧
    (classifyPolarity polarity = "negative" ↔ polarity < -(1/10)) ∧
    (classifyPolarity polarity = "neutral" ↔
      -(1/10) ≤ polarity ∧ polarity ≤ 1/10) ∧
    (∀ oracle : String → Option ℚ, ∀ text : String,
      text ≠ "" → oracle text = some polarity →
        analyze_sentiment oracle text = (polarity, classifyPolarity polarity)) := by
  refine ⟨?_, ?_, ?_, ?_⟩
  · unfold classifyPolarity
    split_ifs with h1 h2
    · exact iff_of_true rfl h1
    · exact iff_of_false (by decide) h1
    · exact iff_of_false (by decide) h1
  · unfold classifyPolarity
    split_ifs with h1 h2
    · refine iff_of_false (by decide) (not_lt.mpr ?_)
      exact le_trans (by norm_num) h1.le
    · exact iff_of_true rfl h2
    · exact iff_of_false (by decide) h2
  · unfold classifyPolarity
    split_ifs with h1 h2
    · exact iff_of_false (by decide) (fun h => absurd h1 (not_lt.mpr h.2))
    · exact iff_of_false (by decide) (fun h => absurd h2 (not_lt.mpr h.1))
    · exact iff_of_true rfl ⟨not_lt.mp h2, not_lt.mp h1⟩
  · intro oracle text hne hsome
    simp [analyze_sentiment, hne, hsome]

theorem analyze_sentiment_thresholds_witness :
    (classifyPolarity (1/2) = "positive" ↔ 1/10 < (1/2 : ℚ)) ∧
    analyze_sentiment (fun _ => some (1/2)) "good news" = (1/2, "positive") :=
  ⟨(analyze_sentiment_thresholds (1/2)).1,
   by
    rw [(analyze_sentiment_thresholds (1/2)).2.2.2 (fun _ => some (1/2))
      "good news" (by decide) rfl]
    have : classifyPolarity (1/2) = "positive" :=
      (analyze_sentiment_thresholds (1/2)).1.mpr (by norm_num)
    rw [this]⟩

theorem find?_append_of_none {α : Type} {p : α → Bool} (l1 l2 : List α)
    (h : l1.find? p = none) : (l1 ++ l2).find? p = l2.find? p := by
  induction l1 with
  | nil => rfl
  | cons a t ih =>
    by_cases hpa : p a
    · rw [List.find?_cons_of_pos _ hpa] at h
      exact absurd h (by simp)
    · rw [List.find?_cons_of_neg _ hpa] at h
      rw [List.cons_append, List.find?_cons_of_neg _ hpa]
      exact ih h

theorem toggle_bookmark_found (oracle : String → Option ℚ)
    (rows : List ArticleRow) (article : NewsArticle) (r : ArticleRow)
    (hfind : rows.find? (fun row => row.url = article.url) = some r) :
    toggle_bookmark oracle rows article =
      (setBookmarkFlag rows article.url (!r.bookmarked),
        .toggled (!r.bookmarked)) := by
  simp [toggle_bookmark, hfind]

theorem toggle_bookmark_not_found (oracle : String → Option ℚ)
    (rows : List ArticleRow) (article : NewsArticle)
    (h : rows.find? (fun row => row.url = article.url) = none) :
    toggle_bookmark oracle rows article =
      (rows ++ [bookmarkInsertRow (process_article oracle article)], .added) := by
  simp [toggle_bookmark, h]

theorem setBookmarkFlag_sets (rows : List ArticleRow) (url : String) (b : Bool) :
    ∀ s ∈ setBookmarkFlag rows url b, s.url = url → s.bookmarked = b := by
  intro s hs hsu
  simp only [setBookmarkFlag, List.mem_map] at hs
  obtain ⟨row, hrow, hmap⟩ := hs
  by_cases h : row.url = url
  · rw [if_pos h] at hmap
    rw [← hmap]
  · rw [if_neg h] at hmap
    rw [← hmap] at hsu
    exact absurd hsu h

/-- C8: toggling the bookmark of an article whose url is not stored inserts
a fresh row with the flag forced true and reports it as added; toggling on
a stored row flips the flag and reports the new state; in particular a
second toggle right after the insert flips the flag from true to false. -/
theorem toggle_bookmark_contract (oracle : String → Option ℚ)
    (rows : List ArticleRow) (article : NewsArticle) :
    ((∀ r ∈ rows, r.url ≠ article.url) →
      (toggle_bookmark oracle rows article).2 = BookmarkResult.added ∧
      (toggle_bookmark oracle rows article).1 =
        rows ++ [bookmarkInsertRow (process_article oracle article)] ∧
      (bookmarkInsertRow (process_article oracle article)).url = article.url ∧
      (bookmarkInsertRow (process_article oracle article)).bookmarked = true) ∧
    (∀ r, rows.find? (fun row => row.url = article.url) = some r →
      (toggle_bookmark oracle rows article).2 =
        BookmarkResult.toggled (!r.bookmarked) ∧
      ∀ s ∈ (toggle_bookmark oracle rows article).1,
        s.url = article.url → s.bookmarked = !r.bookmarked) ∧
    ((∀ r ∈ rows, r.url ≠ article.url) →
      (toggle_bookmark oracle
          (toggle_bookmark oracle rows article).1 article).2 =
        BookmarkResult.toggled false ∧
      ∀ s ∈ (toggle_bookmark oracle
          (toggle_bookmark oracle rows article).1 article).1,
        s.url = article.url → s.bookmarked = false) := by
  have hnone : (∀ r ∈ rows, r.url ≠ article.url) →
      rows.find? (fun row => row.url = article.url) = none := by
    intro h
    exact List.find?_eq_none.mpr (fun x hx => by simpa using h x hx)
  refine ⟨?_, ?_, ?_⟩
  · intro h
    rw [toggle_bookmark_not_found oracle rows article (hnone h)]
    exact ⟨rfl, rfl, rfl, rfl⟩
  · intro r hfind
    rw [toggle_bookmark_found oracle rows article r hfind]
    exact ⟨rfl, setBookmarkFlag_sets rows article.url (!r.bookmarked)⟩
  · intro h
    rw [toggle_bookmark_not_found oracle rows article (hnone h)]
    have hurl : (bookmarkInsertRow (process_article oracle article)).url =
        article.url := rfl
    have hfind2 : (rows ++ [bookmarkInsertRow (process_article oracle article)]).find?
        (fun row => row.url = article.url) =
        some (bookmarkInsertRow (process_article oracle article)) := by
      rw [find?_append_of_none _ _ (hnone h)]
      simp [hurl]
    rw [toggle_bookmark_found oracle _ article _ hfind2]
    have hb : (!(bookmarkInsertRow (process_article oracle article)).bookmarked) =
        false := rfl
    rw [hb]
    exact ⟨rfl, setBookmarkFlag_sets _ article.url false⟩

theorem toggle_bookmark_contract_witness :
    (toggle_bookmark (fun _ => none) [] exampleArticle).2 =
      BookmarkResult.added ∧
    (toggle_bookmark (fun _ => none)
        (toggle_bookmark (fun _ => none) [] exampleArticle).1
        exampleArticle).2 = BookmarkResult.toggled false :=
  ⟨((toggle_bookmark_contract (fun _ => none) [] exampleArticle).1
      (by intro r hr; cases hr)).1,
   ((toggle_bookmark_contract (fun _ => none) [] exampleArticle).2.2
      (by intro r hr; cases hr)).1⟩

theorem firstOccurrencesAux_subset {α β : Type} [DecidableEq β]
    (key : α → β) (seen : List β) (l : List α) :
    ∀ x ∈ firstOccurrencesAux key seen l, x ∈ l := by
  induction l generalizing seen with
  | nil => intro x hx; cases hx
  | cons a t ih =>
    intro x hx
    by_cases h : seen.contains (key a)
    · simp only [firstOccurrencesAux, if_pos h] at hx
      exact List.mem_cons_of_mem _ (ih seen x hx)
    · simp only [firstOccurrencesAux, if_neg h] at hx
      rcases List.mem_cons.mp hx with rfl | hx'
      · exact List.mem_cons_self _ _
      · exact List.mem_cons_of_mem _ (ih _ x hx')

theorem firstOccurrencesAux_key_notin {α β : Type} [DecidableEq β]
    (key : α → β) (seen : List β) (l : List α) :
    ∀ x ∈ firstOccurrencesAux key seen l, key x ∉ seen := by
  induction l generalizing seen with
  | nil => intro x hx; cases hx
  | cons a t ih =>
    intro x hx
    by_cases h : seen.contains (key a)
    · simp only [firstOccurrencesAux, if_pos h] at hx
      exact ih seen x hx
    · simp only [firstOccurrencesAux, if_neg h] at hx
      rcases List.mem_cons.mp hx with rfl | hx'
      · intro hmem
        exact h (by simpa using hmem)
      · intro hmem
        exact ih (key a :: seen) x hx' (List.mem_cons_of_mem _ hmem)

theorem firstOccurrencesAux_keys_nodup {α β : Type} [DecidableEq β]
    (key : α → β) (seen : List β) (l : List α) :
    ((firstOccurrencesAux key seen l).map key).Nodup := by
  induction l generalizing seen with
  | nil => exact List.nodup_nil
  | cons a t ih =>
    by_cases h : seen.contains (key a)
    · simp only [firstOccurrencesAux, if_pos h]
      exact ih seen
    · simp only [firstOccurrencesAux, if_neg h, List.map_cons]
      refine List.nodup_cons.mpr ⟨?_, ih (key a :: seen)⟩
      intro hmem
      obtain ⟨y, hy, hky⟩ := List.mem_map.mp hmem
      exact firstOccurrencesAux_key_notin key (key a :: seen) t y hy
        (hky ▸ List.mem_cons_self _ _)

/-- C9 counterexample: on the example log the code does not return the
claimed most-recent-occurrence order. -/
theorem load_recent_searches_example_ne_spec :
    load_recent_searches exampleSearches ≠ ["space", "moon", "ai"] := by decide

/-- C9 (amended): recent searches are distinct and at most five, obtained
by keeping the first-recorded row of each distinct query and ordering
those rows by timestamp descending (SQLite's behavior for this DISTINCT
query); on the example log this yields ["moon", "space", "ai"]. -/
theorem load_recent_searches_behavior (searches : List SearchRecord) :
    load_recent_searches searches =
      ((distinctByRecency searches).map SearchRecord.query).take 5 ∧
    (load_recent_searches searches).Nodup ∧
    (load_recent_searches searches).length ≤ 5 ∧
    (distinctByRecency searches).Pairwise byTimestampDesc ∧
    (distinctByRecency searches).Perm
      (firstOccurrences SearchRecord.query searches) ∧
    load_recent_searches exampleSearches = ["moon", "space", "ai"] := by
  have hperm : (distinctByRecency searches).Perm
      (firstOccurrences SearchRecord.query searches) :=
    List.perm_insertionSort byTimestampDesc _
  refine ⟨rfl, ?_, ?_, ?_, hperm, by decide⟩
  · have h1 : ((firstOccurrences SearchRecord.query searches).map
        SearchRecord.query).Nodup := firstOccurrencesAux_keys_nodup _ _ _
    have h2 := (hperm.map SearchRecord.query).nodup_iff.mpr h1
    exact (List.take_sublist _ _).nodup h2
  · rw [load_recent_searches, List.length_take]
    exact min_le_left _ _
  · exact List.sorted_insertionSort byTimestampDesc _

theorem load_recent_searches_behavior_witness :
    load_recent_searches exampleSearches = ["moon", "space", "ai"] :=
  (load_recent_searches_behavior exampleSearches).2.2.2.2.2

/-- C10 counterexample: a payload whose only item carries a date string no
parser accepts but is dropped by the title filter — the call succeeds with
an empty list instead of failing, so a malformed date on an arbitrary
payload item does not fail the call. -/
theorem fetch_news_removed_malformed_date_ok :
    (fun _ => (none : Option String))
        (removedItem.publishedAt.replace "Z" "+00:00") = none ∧
    removedItem ∈ [removedItem] ∧
    fetch_news (fun _ => none) [removedItem] = .ok [] :=
  ⟨rfl, List.mem_singleton_self _, rfl⟩

/-- C10 (amended): if some item that passes the title filter carries a
publishedAt the parser rejects, the whole call fails with an error and no
article list is produced — there is no partial success. -/
theorem fetch_news_fails_on_malformed_date
    (parseDate : String → Option String) (items : List RawItem)
    (h : ∃ item ∈ items, keepItem item = true ∧
      parseDate (item.publishedAt.replace "Z" "+00:00") = none) :
    (fetch_news parseDate items).toOption = none := by
  induction items with
  | nil =>
    obtain ⟨item, hmem, _⟩ := h
    cases hmem
  | cons it rest ih =>
    obtain ⟨item, hmem, hkeep, hdate⟩ := h
    rcases List.mem_cons.mp hmem with rfl | hmem'
    · simp [fetch_news, hkeep, hdate, Except.toOption]
    · have hrest := ih ⟨item, hmem', hkeep, hdate⟩
      by_cases hk : keepItem it
      · cases hpd : parseDate (it.publishedAt.replace "Z" "+00:00") with
        | none => simp [fetch_news, hk, hpd, Except.toOption]
        | some d =>
          cases hres : fetch_news parseDate rest with
          | ok articles =>
            rw [hres] at hrest
            exact absurd hrest (by simp [Except.toOption])
          | error e => simp [fetch_news, hk, hpd, hres, Except.toOption]
      · simp only [fetch_news, if_neg hk]
        exact hrest

theorem fetch_news_fails_on_malformed_date_witness :
    (fetch_news (fun _ => none) [titledItem]).toOption = none :=
  fetch_news_fails_on_malformed_date (fun _ => none) [titledItem]
    ⟨titledItem, List.mem_singleton_self _, by decide, rfl⟩

theorem filter_map_comm {α β : Type} (f : α → β) (p : β → Bool) (l : List α) :
    (l.map f).filter p = (l.filter (fun a => p (f a))).map f := by
  induction l with
  | nil => rfl
  | cons a t ih =>
    by_cases h : p (f a) <;> simp [List.filter_cons, h, ih]

theorem mem_counterItems_snd (ws : List String) (p : String × Nat)
    (hp : p ∈ counterItems ws) : p.2 = ws.count p.1 := by
  rw [counterItems] at hp
  obtain ⟨w, _, rfl⟩ := List.mem_map.mp hp
  rfl

theorem filter_orderedInsert_count (a : String × Nat)
    (l : List (String × Nat)) (c : Nat) :
    (List.orderedInsert byCountDesc a l).filter (fun p => p.2 == c) =
      if a.2 == c then a :: l.filter (fun p => p.2 == c)
      else l.filter (fun p => p.2 == c) := by
  induction l with
  | nil => simp [List.orderedInsert, List.filter_cons]
  | cons b t ih =>
    by_cases hr : byCountDesc a b
    · simp only [List.orderedInsert, if_pos hr, List.filter_cons]
    · simp only [List.orderedInsert, if_neg hr, List.filter_cons, ih]
      have hab : a.2 < b.2 := Nat.lt_of_not_le hr
      by_cases hac : a.2 = c
      · have hbc : (b.2 == c) = false := by
          have hne : b.2 ≠ c := by omega
          simp [hne]
        have hac' : (a.2 == c) = true := by simp [hac]
        simp [hac', hbc]
      · have hac' : (a.2 == c) = false := by simp [hac]
        simp [hac']

theorem filter_insertionSort_count (l : List (String × Nat)) (c : Nat) :
    (List.insertionSort byCountDesc l).filter (fun p => p.2 == c) =
      l.filter (fun p => p.2 == c) := by
  induction l with
  | nil => rfl
  | cons a t ih =>
    simp only [List.insertionSort, filter_orderedInsert_count, ih, List.filter_cons]

theorem mem_rankedKeywords (text : String) (w : String)
    (hw : w ∈ rankedKeywords text) :
    3 ≤ w.length ∧ stop_words.contains w = false ∧ w ∈ tokenize text := by
  rw [rankedKeywords] at hw
  obtain ⟨p, hp, rfl⟩ := List.mem_map.mp hw
  have hp2 : p ∈ counterItems (filteredWords text) :=
    (List.perm_insertionSort byCountDesc _).mem_iff.mp hp
  rw [counterItems] at hp2
  obtain ⟨v, hv, rfl⟩ := List.mem_map.mp hp2
  have hvws : v ∈ filteredWords text :=
    firstOccurrencesAux_subset id [] (filteredWords text) v hv
  rw [filteredWords, List.mem_filter] at hvws
  obtain ⟨htok, hcond⟩ := hvws
  rw [Bool.and_eq_true] at hcond
  exact ⟨of_decide_eq_true hcond.1, by simpa using hcond.2, htok⟩

/-- C6: keyword extraction returns at most `n` tokens: the `n`-prefix of
the ranking of the distinct filtered words (tokens of the lowercased,
non-alphabetic-stripped text of length at least 3 outside the stop-word
set, in first-encounter order) sorted stably by descending frequency —
ties stay in first-encountered order. -/
theorem extract_keywords_characterization (text : String) (n : Nat) :
    (extract_keywords text n).length ≤ n ∧
    extract_keywords text n = (rankedKeywords text).take n ∧
    (rankedKeywords text).Perm (firstOccurrences id (filteredWords text)) ∧
    (rankedKeywords text).Pairwise
      (fun a b => (filteredWords text).count b ≤ (filteredWords text).count a) ∧
    (∀ c : Nat, (rankedKeywords text).filter
        (fun w => (filteredWords text).count w == c) =
      (firstOccurrences id (filteredWords text)).filter
        (fun w => (filteredWords text).count w == c)) ∧
    (∀ w ∈ rankedKeywords text,
      3 ≤ w.length ∧ stop_words.contains w = false ∧ w ∈ tokenize text) := by
  have heq : extract_keywords text n = (rankedKeywords text).take n := by
    by_cases h : text = ""
    · subst h
      have hr : rankedKeywords "" = [] := rfl
      simp [extract_keywords, hr]
    · simp [extract_keywords, h, most_common, rankedKeywords]
  have hsnd : ∀ p ∈ List.insertionSort byCountDesc
      (counterItems (filteredWords text)),
      p.2 = (filteredWords text).count p.1 := by
    intro p hp
    exact mem_counterItems_snd _ p
      ((List.perm_insertionSort byCountDesc _).mem_iff.mp hp)
  have hmapfst : (counterItems (filteredWords text)).map Prod.fst =
      firstOccurrences id (filteredWords text) := by
    rw [counterItems, List.map_map]
    have hcomp : (Prod.fst ∘ fun w => (w, (filteredWords text).count w)) =
        (id : String → String) := rfl
    rw [hcomp, List.map_id]
  refine ⟨?_, heq, ?_, ?_, ?_, ?_⟩
  · rw [heq, List.length_take]
    exact min_le_left _ _
  · rw [← hmapfst]
    exact (List.perm_insertionSort byCountDesc _).map _
  · rw [rankedKeywords, List.pairwise_map]
    have hs : (List.insertionSort byCountDesc
        (counterItems (filteredWords text))).Pairwise byCountDesc :=
      List.sorted_insertionSort byCountDesc _
    exact hs.imp_of_mem (fun hp hq hr => by
      rw [← hsnd _ hp, ← hsnd _ hq]
      exact hr)
  · intro c
    rw [rankedKeywords, sortedCounterItems, filter_map_comm]
    have hcong : (List.insertionSort byCountDesc
          (counterItems (filteredWords text))).filter
        (fun p => (filteredWords text).count p.1 == c) =
        (List.insertionSort byCountDesc
          (counterItems (filteredWords text))).filter
        (fun p => p.2 == c) := by
      apply List.filter_congr
      intro p hp
      rw [hsnd p hp]
    rw [hcong, filter_insertionSort_count, counterItems, filter_map_comm,
      List.map_map]
    have hcomp : (Prod.fst ∘ fun w => (w, (filteredWords text).count w)) =
        (id : String → String) := rfl
    rw [hcomp, List.map_id]
  · intro w hw
    exact mem_rankedKeywords text w hw

theorem extract_keywords_characterization_witness :
    (extract_keywords "Breaking news as markets gained while markets rallied" 2).length ≤ 2 ∧
    extract_keywords "Breaking news as markets gained while markets rallied" 2 =
      (rankedKeywords "Breaking news as markets gained while markets rallied").take 2 :=
  ⟨(extract_keywords_characterization _ 2).1,
   (extract_keywords_characterization _ 2).2.1⟩
